import Mathlib

/-!
Verification of the job-application tracker backend.

The definitions below are a shallow embedding of the FastAPI backend
(`main.py`, `models.py`) and the scraping heuristic (`scraper.py`).
Database rows are lists of records, the filesystem is an association list,
machine-level effects (fresh uuid, clock, OS refusals) are explicit
parameters, and fallible Python code is embedded in `Except`.
-/

deriving instance DecidableEq for Except

namespace JobTracker

/-- Row type of the `job_applications` table (`models.py`, class
`JobApplication`), with `applied_date` as an abstract timestamp. -/
structure JobApplication where
  id : Nat
  company_name : String
  job_title : String
  job_description : String
  job_url : Option String
  resume_path : String
  cover_letter_path : Option String
  referrer_name : Option String
  referrer_email : Option String
  recruiter_name : Option String
  recruiter_email : Option String
  status : String
  is_tailored : Bool
  my_location : Option String
  applied_date : Nat
deriving DecidableEq, Repr

/-- The five permissible status values (`STATUS_OPTIONS` in `app.py`; the
closed set of the specification). -/
def STATUS_OPTIONS : List String :=
  ["Applied", "Rejected", "Assessment", "Interview", "Offer"]

/-- SQL `LIKE` pattern matching over characters: `%` matches any sequence
(the rest of the pattern must match some suffix of the text), `_` matches
any single character, anything else matches itself. -/
def likeM : List Char → List Char → Bool
  | [], [] => true
  | [], _ :: _ => false
  | c :: p, t =>
    if c = '%' then
      (t.tails).any (fun t2 => likeM p t2)
    else
      match t with
      | [] => false
      | d :: t2 => (if c = '_' then true else c == d) && likeM p t2

/-- SQLAlchemy `col.ilike(pat)`: case-insensitive `LIKE`, i.e. both sides
are lowercased and then matched. -/
def ilike (pat text : String) : Bool :=
  likeM (pat.data.map Char.toLower) (text.data.map Char.toLower)

/-- `ilike` lifted to a nullable column: SQL `NULL LIKE pat` is not true. -/
def ilikeOpt (pat : String) (o : Option String) : Bool :=
  match o with
  | some v => ilike pat v
  | none => false

/-- The search disjunction of `get_applications` (`main.py`): the pattern
is the search text wrapped in `%`, tried on company name, job title,
referrer name and recruiter name. -/
def rowMatchesSearch (search : String) (r : JobApplication) : Bool :=
  let pat := "%" ++ search ++ "%"
  ilike pat r.company_name || ilike pat r.job_title ||
    ilikeOpt pat r.referrer_name || ilikeOpt pat r.recruiter_name

/-- The combined filter of `get_applications`: each of the two filters is
applied only when its parameter is present and non-empty (Python
truthiness of the query parameter). -/
def rowMatches (search status : Option String) (r : JobApplication) : Bool :=
  (match search with
   | some s => if s = "" then true else rowMatchesSearch s r
   | none => true) &&
  (match status with
   | some st => if st = "" then true else r.status == st
   | none => true)

/-- Result ordering `order_by(JobApplication.applied_date.desc())`:
`a` may come before `b` when `a` has the later (or equal) date. -/
def dateDesc (a b : JobApplication) : Prop :=
  b.applied_date ≤ a.applied_date

instance : DecidableRel dateDesc := fun a b =>
  Nat.decLe b.applied_date a.applied_date

instance : IsTotal JobApplication dateDesc :=
  ⟨fun a b => Nat.le_total b.applied_date a.applied_date⟩

instance : IsTrans JobApplication dateDesc :=
  ⟨fun _ _ _ hab hbc => Nat.le_trans hbc hab⟩

/-- Response shape of `GET /applications/`. -/
structure ListResult where
  total : Nat
  applications : List JobApplication
  page : Nat
  total_pages : Nat
deriving DecidableEq, Repr

/-- Runtime errors of the list endpoint: Python `//` raises
`ZeroDivisionError` when the divisor is zero. -/
inductive PyError where
  | zeroDivision
deriving DecidableEq, Repr

/-- `GET /applications/` handler `get_applications` (`main.py`): filter,
count before pagination, order by `applied_date` descending, then
offset/limit; the response dict divides by `limit` twice, unguarded. -/
def get_applications (db : List JobApplication) (search status : Option String)
    (skip limit : Nat) : Except PyError ListResult :=
  let filtered := db.filter (rowMatches search status)
  let total := filtered.length
  let apps := ((List.insertionSort dateDesc filtered).drop skip).take limit
  if limit = 0 then
    .error .zeroDivision
  else
    .ok { total := total
          applications := apps
          page := skip / limit + 1
          total_pages := (total + limit - 1) / limit }

/-- The rounded-up quotient computed by the endpoint is an upper bound:
`total` fits into `(total + limit - 1) / limit` pages of size `limit`. -/
theorem ceil_div_ge (t l : Nat) (hl : 0 < l) : t ≤ (t + l - 1) / l * l := by
  cases t with
  | zero => exact Nat.zero_le _
  | succ t =>
    have h1 : t + 1 + l - 1 = t + l := by omega
    rw [h1, Nat.add_div_right t hl, Nat.succ_mul]
    have h2 := Nat.div_add_mod t l
    have h3 : t % l < l := Nat.mod_lt t hl
    have h4 : t + 1 = l * (t / l) + (t % l + 1) := by rw [← Nat.add_assoc, h2]
    rw [h4, Nat.mul_comm l (t / l)]
    exact Nat.add_le_add_left (Nat.succ_le_of_lt h3) _

/-- The rounded-up quotient is the least such bound: any `m` pages of size
`l` covering `t` rows satisfy `(t + l - 1) / l ≤ m`. -/
theorem ceil_div_least (t l m : Nat) (hl : 0 < l) (h : t ≤ m * l) :
    (t + l - 1) / l ≤ m := by
  cases t with
  | zero =>
    have h0 : 0 + l - 1 < l := by omega
    rw [Nat.div_eq_of_lt h0]
    exact Nat.zero_le m
  | succ t =>
    have h1 : t + 1 + l - 1 = t + l := by omega
    rw [h1, Nat.add_div_right t hl]
    exact (Nat.div_lt_iff_lt_mul hl).mpr h

/-- Claim C10: calling the list endpoint with `limit = 0` never returns a
result: the unguarded divisions `skip // limit` and
`(total + limit - 1) // limit` raise `ZeroDivisionError`, whatever the
store and the other parameters are. -/
theorem get_applications_zero_limit_raises (db : List JobApplication)
    (search status : Option String) (skip : Nat) :
    get_applications db search status skip 0 = .error .zeroDivision := rfl

/-- Claim C3: with a positive limit the list endpoint succeeds, the
returned page is ordered by `applied_date` descending, `total` is the
number of records satisfying the search and status filters (independently
of `skip` and `limit`), `page` is `skip / limit + 1` in integer division,
and `total_pages` is the ceiling of `total / limit`, characterised as the
least `m` with `total ≤ m * limit`. -/
theorem get_applications_ordering_pagination
    (db : List JobApplication) (search status : Option String)
    (skip limit : Nat) (hl : 0 < limit) :
    ∃ res, get_applications db search status skip limit = .ok res ∧
      List.Sorted dateDesc res.applications ∧
      res.total = (db.filter (rowMatches search status)).length ∧
      res.page = skip / limit + 1 ∧
      res.total ≤ res.total_pages * limit ∧
      (∀ m : Nat, res.total ≤ m * limit → res.total_pages ≤ m) := by
  have hne : ¬ limit = 0 := by omega
  have hsub : List.Sublist
      (((List.insertionSort dateDesc
        (db.filter (rowMatches search status))).drop skip).take limit)
      (List.insertionSort dateDesc (db.filter (rowMatches search status))) :=
    (List.take_sublist _ _).trans (List.drop_sublist _ _)
  have hsorted := List.Pairwise.sublist hsub
    (List.sorted_insertionSort dateDesc (db.filter (rowMatches search status)))
  simp only [get_applications, if_neg hne]
  exact ⟨_, rfl, hsorted, rfl, rfl, ceil_div_ge _ limit hl,
    fun m hm => ceil_div_least _ limit m hl hm⟩

/-- A concrete record: applied later than `recB`. -/
def recA : JobApplication :=
  { id := 1, company_name := "Acme Corp", job_title := "Engineer"
    job_description := "Build things", job_url := none
    resume_path := "uploads/resumes/a_resume.pdf", cover_letter_path := none
    referrer_name := none, referrer_email := none
    recruiter_name := none, recruiter_email := none
    status := "Applied", is_tailored := false, my_location := none
    applied_date := 10 }

/-- A concrete record: applied earlier than `recA`. -/
def recB : JobApplication :=
  { id := 2, company_name := "Globex", job_title := "Analyst"
    job_description := "Analyse things", job_url := none
    resume_path := "uploads/resumes/b_resume.pdf", cover_letter_path := none
    referrer_name := some "Bob", referrer_email := none
    recruiter_name := none, recruiter_email := none
    status := "Offer", is_tailored := false, my_location := none
    applied_date := 5 }

/-- Witness for claim C3 at a concrete store and a concrete call. -/
theorem get_applications_ordering_pagination_witness :
    0 < 1 ∧
    ∃ res, get_applications [recB, recA] none none 0 1 = .ok res ∧
      List.Sorted dateDesc res.applications ∧
      res.total = ([recB, recA].filter (rowMatches none none)).length ∧
      res.page = 0 / 1 + 1 ∧
      res.total ≤ res.total_pages * 1 ∧
      (∀ m : Nat, res.total ≤ m * 1 → res.total_pages ≤ m) :=
  ⟨by decide,
   get_applications_ordering_pagination [recB, recA] none none 0 1 (by decide)⟩

/-- Error outcomes of the endpoints: FastAPI 404, FastAPI/pydantic 422
request validation failure, and an uncaught filesystem error (surfaced as
an HTTP 500). -/
inductive HttpError where
  | notFound
  | validationError
  | storageError
deriving DecidableEq, Repr

/-- A key of a JSON request body: absent, explicit `null`, or a value. -/
inductive JsonField (α : Type) where
  | omitted
  | null
  | val (a : α)
deriving DecidableEq, Repr

/-- How pydantic materialises an `Optional[...] = None` model field from a
JSON key: an absent key and an explicit `null` both become `None`. -/
def JsonField.toOption : JsonField α → Option α
  | .omitted => none
  | .null => none
  | .val a => some a

/-- Raw JSON body of a `PUT /applications/id` request, over the keys the
specification lists as updatable. -/
structure UpdateBody where
  status : JsonField String
  referrer_name : JsonField String
  referrer_email : JsonField String
  recruiter_name : JsonField String
  recruiter_email : JsonField String
  is_tailored : JsonField Bool
  my_location : JsonField String
deriving DecidableEq, Repr

/-- Pydantic model `ApplicationUpdate` (`main.py`): exactly five optional
fields. -/
structure ApplicationUpdate where
  status : Option String
  referrer_name : Option String
  referrer_email : Option String
  recruiter_name : Option String
  recruiter_email : Option String
deriving DecidableEq, Repr

/-- Parsing a request body into `ApplicationUpdate`: the five model fields
are read (`null` and absent both give `None`); keys that are not fields of
the model — `is_tailored` and `my_location` — are ignored (pydantic's
default behaviour for extra keys). -/
def parseApplicationUpdate (b : UpdateBody) : ApplicationUpdate :=
  ⟨b.status.toOption, b.referrer_name.toOption, b.referrer_email.toOption,
   b.recruiter_name.toOption, b.recruiter_email.toOption⟩

/-- The `if ... is not None` assignment chain of `update_application`
(`main.py` lines 172-183). -/
def applyUpdate (u : ApplicationUpdate) (a : JobApplication) : JobApplication :=
  let a1 := match u.status with
    | some s => { a with status := s }
    | none => a
  let a2 := match u.referrer_name with
    | some v => { a1 with referrer_name := some v }
    | none => a1
  let a3 := match u.referrer_email with
    | some v => { a2 with referrer_email := some v }
    | none => a2
  let a4 := match u.recruiter_name with
    | some v => { a3 with recruiter_name := some v }
    | none => a3
  match u.recruiter_email with
  | some v => { a4 with recruiter_email := some v }
  | none => a4

/-- `PUT /applications/id` handler `update_application` (`main.py`):
parse the body, 404 when the id is absent, otherwise assign the provided
fields and commit. Returns the refreshed record and the new table. -/
def update_application (db : List JobApplication) (application_id : Nat)
    (body : UpdateBody) : Except HttpError (JobApplication × List JobApplication) :=
  let u := parseApplicationUpdate body
  match db.find? (fun r => r.id == application_id) with
  | none => .error .notFound
  | some a =>
    let a2 := applyUpdate u a
    .ok (a2, db.map (fun r => if r.id == application_id then a2 else r))

/-- An update body that only provides `is_tailored` and `my_location`. -/
def bodyTailoredLocation : UpdateBody :=
  ⟨.omitted, .omitted, .omitted, .omitted, .omitted, .val true, .val "NYC"⟩

/-- Claim C1: providing `is_tailored` and `my_location` in the update body
changes nothing — the pydantic model has no such fields, so the record is
returned and persisted with both fields untouched, refuting the claim that
all seven listed fields are applied. -/
theorem update_ignores_tailored_location :
    update_application [recA] 1 bodyTailoredLocation = .ok (recA, [recA]) ∧
    recA.is_tailored = false ∧ recA.my_location = none := by
  decide

/-- Field-by-field description of the assignment chain: each of the five
model fields is overwritten exactly when it was provided, and every other
column of the record is untouched. -/
theorem applyUpdate_spec (u : ApplicationUpdate) (a : JobApplication) :
    (applyUpdate u a).status = u.status.getD a.status ∧
    (applyUpdate u a).referrer_name = (u.referrer_name.map some).getD a.referrer_name ∧
    (applyUpdate u a).referrer_email = (u.referrer_email.map some).getD a.referrer_email ∧
    (applyUpdate u a).recruiter_name = (u.recruiter_name.map some).getD a.recruiter_name ∧
    (applyUpdate u a).recruiter_email = (u.recruiter_email.map some).getD a.recruiter_email ∧
    (applyUpdate u a).id = a.id ∧
    (applyUpdate u a).company_name = a.company_name ∧
    (applyUpdate u a).job_title = a.job_title ∧
    (applyUpdate u a).job_description = a.job_description ∧
    (applyUpdate u a).job_url = a.job_url ∧
    (applyUpdate u a).resume_path = a.resume_path ∧
    (applyUpdate u a).cover_letter_path = a.cover_letter_path ∧
    (applyUpdate u a).is_tailored = a.is_tailored ∧
    (applyUpdate u a).my_location = a.my_location ∧
    (applyUpdate u a).applied_date = a.applied_date := by
  obtain ⟨s, rn, re, cn, ce⟩ := u
  cases s <;> cases rn <;> cases re <;> cases cn <;> cases ce <;>
    simp [applyUpdate]

/-- An update body whose only provided key is an out-of-set status. -/
def bodyGhosted : UpdateBody :=
  ⟨.val "Ghosted", .omitted, .omitted, .omitted, .omitted, .omitted, .omitted⟩

/-- Counterexample to claim C2: updating with status `"Ghosted"` — not a
member of the closed set — succeeds and persists the record with that
status, so no `ValidationError` is raised and the closed-set invariant
does not hold for the stored record. -/
theorem update_status_unvalidated_cex :
    update_application [recA] 1 bodyGhosted =
      .ok ({ recA with status := "Ghosted" }, [{ recA with status := "Ghosted" }]) ∧
    "Ghosted" ∉ STATUS_OPTIONS := by
  decide

/-- Claim C2 as amended: neither validation nor rejection happens — for any
record present in the table and any provided status string `s`, the update
succeeds and the record is returned and persisted with status exactly `s`,
whether or not `s` belongs to the closed set. -/
theorem update_status_stored_verbatim (db : List JobApplication)
    (application_id : Nat) (a : JobApplication) (body : UpdateBody) (s : String)
    (h1 : db.find? (fun r => r.id == application_id) = some a)
    (h2 : body.status = JsonField.val s) :
    ∃ r db2, update_application db application_id body = .ok (r, db2) ∧
      r.status = s ∧ r ∈ db2 := by
  have hp : (parseApplicationUpdate body).status = some s := by
    simp [parseApplicationUpdate, h2, JsonField.toOption]
  have hst : (applyUpdate (parseApplicationUpdate body) a).status = s := by
    rw [(applyUpdate_spec (parseApplicationUpdate body) a).1, hp]
    rfl
  have hpa : (a.id == application_id) = true := by
    have h3 := List.find?_some h1
    simpa using h3
  have hmem : a ∈ db := List.mem_of_find?_eq_some h1
  refine ⟨applyUpdate (parseApplicationUpdate body) a,
    db.map (fun r => if r.id == application_id
      then applyUpdate (parseApplicationUpdate body) a else r),
    ?_, hst, ?_⟩
  · simp only [update_application, h1]
  · exact List.mem_map.2 ⟨a, hmem, by simp [hpa]⟩

/-- Witness for the amended claim C2 at a concrete store and body. -/
theorem update_status_stored_verbatim_witness :
    ∃ r db2, update_application [recB] 2 bodyGhosted = .ok (r, db2) ∧
      r.status = "Ghosted" ∧ r ∈ db2 :=
  update_status_stored_verbatim [recB] 2 recB bodyGhosted "Ghosted"
    (by decide) (by decide)

/-- An update body whose only key is `referrer_name`, set to JSON null. -/
def bodyNullReferrer : UpdateBody :=
  ⟨.omitted, .null, .omitted, .omitted, .omitted, .omitted, .omitted⟩

/-- An update body with no key at all. -/
def bodyAllOmitted : UpdateBody :=
  ⟨.omitted, .omitted, .omitted, .omitted, .omitted, .omitted, .omitted⟩

/-- Counterexample to claim C5: a field set to JSON null is not
distinguished from an omitted field — on a record whose referrer is
`"Bob"`, the body `referrer_name: null` produces exactly the same outcome
as the empty body, and the referrer is left at `"Bob"` rather than
cleared. -/
theorem update_null_equals_omitted_cex :
    update_application [recB] 2 bodyNullReferrer =
      update_application [recB] 2 bodyAllOmitted ∧
    update_application [recB] 2 bodyNullReferrer = .ok (recB, [recB]) ∧
    recB.referrer_name = some "Bob" := by
  decide

/-- Claim C5 as amended: the update applies exactly the fields provided
with a non-null value and leaves every other column unchanged — updating
only the status yields a record differing from the original in the status
alone; an explicitly provided empty string is applied (clearing the text
to empty, unlike omission); and a field set to JSON null behaves exactly
like an omitted field, since both parse to the same model value. -/
theorem update_partial_field_semantics (db : List JobApplication)
    (application_id : Nat) (a : JobApplication)
    (h1 : db.find? (fun r => r.id == application_id) = some a) :
    (∀ s : String,
      update_application db application_id
        ⟨.val s, .omitted, .omitted, .omitted, .omitted, .omitted, .omitted⟩ =
        .ok ({ a with status := s },
          db.map (fun r => if r.id == application_id
            then { a with status := s } else r))) ∧
    (∀ v : String,
      update_application db application_id
        ⟨.omitted, .val v, .omitted, .omitted, .omitted, .omitted, .omitted⟩ =
        .ok ({ a with referrer_name := some v },
          db.map (fun r => if r.id == application_id
            then { a with referrer_name := some v } else r))) ∧
    (∀ b b2 : UpdateBody, parseApplicationUpdate b = parseApplicationUpdate b2 →
      update_application db application_id b =
        update_application db application_id b2) ∧
    (∀ b : UpdateBody,
      update_application db application_id
        { b with referrer_name := JsonField.null } =
      update_application db application_id
        { b with referrer_name := JsonField.omitted }) := by
  refine ⟨?_, ?_, ?_, ?_⟩
  · intro s
    simp only [update_application, h1]
    rfl
  · intro v
    simp only [update_application, h1]
    rfl
  · intro b b2 h
    simp only [update_application]
    rw [h]
  · intro b
    simp only [update_application]
    rfl

/-- Witness for the amended claim C5 at a concrete record and concrete
bodies, including clearing a text field with an explicit empty string. -/
theorem update_partial_field_semantics_witness :
    update_application [recB] 2
      ⟨.val "Interview", .omitted, .omitted, .omitted, .omitted, .omitted, .omitted⟩ =
      .ok ({ recB with status := "Interview" },
        [recB].map (fun r => if r.id == 2
          then { recB with status := "Interview" } else r)) ∧
    update_application [recB] 2
      ⟨.omitted, .val "", .omitted, .omitted, .omitted, .omitted, .omitted⟩ =
      .ok ({ recB with referrer_name := some "" },
        [recB].map (fun r => if r.id == 2
          then { recB with referrer_name := some "" } else r)) ∧
    update_application [recB] 2 { bodyAllOmitted with referrer_name := JsonField.null } =
      update_application [recB] 2 { bodyAllOmitted with referrer_name := JsonField.omitted } :=
  have h := update_partial_field_semantics [recB] 2 recB (by decide)
  ⟨h.1 "Interview", h.2.1 "", h.2.2.2 bodyAllOmitted⟩

/-- Character-level core of Python `os.path.splitext(p)[1]`: `rev` is the
basename (the part after the last `/`) reversed, `pre` its characters
after the last dot (reversed); the extension starts at the last dot of
the basename — except that when every basename character before that dot
is itself a dot there is no extension — and is empty when the basename
has no dot at all. -/
def splitextExtData (l : List Char) : List Char :=
  let rev := l.reverse.takeWhile (fun c => !(c == '/'))
  let pre := rev.takeWhile (fun c => !(c == '.'))
  if pre.length = rev.length then []
  else if (rev.drop (pre.length + 1)).any (fun c => !(c == '.')) then
    '.' :: pre.reverse
  else []

/-- `get_file_extension` from `main.py`: `os.path.splitext(filename)[1]`. -/
def get_file_extension (filename : String) : String :=
  String.mk (splitextExtData filename.data)

/-- A stored file: the uploaded bytes, plus an environment flag under
which the OS refuses to touch the path (the way an `os.remove` or `open`
call can raise `OSError`). -/
structure FileEntry where
  content : List Nat
  locked : Bool
deriving DecidableEq, Repr

/-- The uploads filesystem: an association list from paths to entries. -/
abbrev FileSys := List (String × FileEntry)

def fsLookup (fs : FileSys) (path : String) : Option FileEntry :=
  (fs.find? (fun e => e.1 == path)).map (fun e => e.2)

/-- `os.path.exists`. -/
def fsExists (fs : FileSys) (path : String) : Bool :=
  (fsLookup fs path).isSome

/-- `open(path, "wb")` followed by `shutil.copyfileobj`: create, or
truncate and overwrite; raises when the OS refuses the path. -/
def fsWrite (fs : FileSys) (path : String) (content : List Nat) :
    Except HttpError FileSys :=
  match fsLookup fs path with
  | some e =>
    if e.locked then .error .storageError
    else .ok ((path, ⟨content, false⟩) :: fs.filter (fun e2 => !(e2.1 == path)))
  | none => .ok ((path, ⟨content, false⟩) :: fs)

/-- `os.remove path`: raises when the path is absent or the OS refuses. -/
def fsRemove (fs : FileSys) (path : String) : Except HttpError FileSys :=
  match fsLookup fs path with
  | none => .error .storageError
  | some e =>
    if e.locked then .error .storageError
    else .ok (fs.filter (fun e2 => !(e2.1 == path)))

/-- An uploaded multipart file: client-supplied filename and raw bytes. -/
structure FileUpload where
  filename : String
  content : List Nat
deriving DecidableEq, Repr

/-- Multipart form of `POST /applications/`; `none` marks an absent
field. -/
structure CreateRequest where
  job_title : Option String
  company_name : Option String
  job_description : Option String
  resume : Option FileUpload
  cover_letter : Option FileUpload
  referrer_name : Option String
  referrer_email : Option String
  recruiter_name : Option String
  recruiter_email : Option String
  status : Option String
deriving DecidableEq, Repr

/-- Server-side state: the table, the autoincrement counter of the
integer primary key, and the uploads filesystem. -/
structure ServerState where
  db : List JobApplication
  nextId : Nat
  files : FileSys
deriving DecidableEq, Repr

/-- `POST /applications/` handler `create_application` (`main.py`):
FastAPI rejects the request (422) before the handler runs when a required
`Form(...)`/`File(...)` parameter is missing; otherwise the handler draws
a fresh uuid — made explicit here as the `uuid` argument — writes the
resume and, when present, the cover letter under uuid-derived paths, then
inserts the row, to which the database assigns the next integer id.
`now` is `datetime.now()`. Any exception inside the handler is re-raised
as an HTTP 500. -/
def create_application (st : ServerState) (uuid : String) (now : Nat)
    (req : CreateRequest) : Except HttpError (Nat × ServerState) :=
  match req.job_title, req.company_name, req.job_description, req.resume with
  | some jt, some cn, some jd, some res =>
    let resume_path := "uploads/resumes/" ++ uuid ++ "_resume" ++
      get_file_extension res.filename
    match fsWrite st.files resume_path res.content with
    | .error _ => .error .storageError
    | .ok fs1 =>
      let coverStep : Except HttpError (Option String × FileSys) :=
        match req.cover_letter with
        | some cl =>
          let clp := "uploads/cover_letters/" ++ uuid ++ "_cover_letter" ++
            get_file_extension cl.filename
          match fsWrite fs1 clp cl.content with
          | .error _ => .error .storageError
          | .ok fs2 => .ok (some clp, fs2)
        | none => .ok (none, fs1)
      match coverStep with
      | .error _ => .error .storageError
      | .ok (clp, fs2) =>
        let app : JobApplication :=
          { id := st.nextId, company_name := cn, job_title := jt
            job_description := jd, job_url := none
            resume_path := resume_path, cover_letter_path := clp
            referrer_name := req.referrer_name
            referrer_email := req.referrer_email
            recruiter_name := req.recruiter_name
            recruiter_email := req.recruiter_email
            status := req.status.getD "Applied"
            is_tailored := false, my_location := none, applied_date := now }
        .ok (st.nextId,
          { db := st.db ++ [app], nextId := st.nextId + 1, files := fs2 })
  | _, _, _, _ => .error .validationError

/-- The guarded removal `if path and os.path.exists(path): os.remove(path)`
of `delete_application`: skipped for an empty or non-existent path, and
not wrapped in try/except, so an `OSError` from `os.remove` propagates. -/
def removeIfPresent (fs : FileSys) (path : String) : Except HttpError FileSys :=
  if !path.isEmpty && fsExists fs path then fsRemove fs path else .ok fs

/-- The same removal step for the nullable cover-letter path. -/
def removeOptIfPresent (fs : FileSys) (path : Option String) :
    Except HttpError FileSys :=
  match path with
  | some p => removeIfPresent fs p
  | none => .ok fs

/-- `DELETE /applications/id` handler `delete_application` (`main.py`):
404 when the id is absent; otherwise it removes each referenced file that
exists and only then deletes the row and commits — with no try/except, an
error during file removal aborts the request before the row is deleted. -/
def delete_application (st : ServerState) (application_id : Nat) :
    Except HttpError (String × ServerState) :=
  match st.db.find? (fun r => r.id == application_id) with
  | none => .error .notFound
  | some a =>
    match removeIfPresent st.files a.resume_path with
    | .error e => .error e
    | .ok fs1 =>
      match removeOptIfPresent fs1 a.cover_letter_path with
      | .error e => .error e
      | .ok fs2 =>
        .ok ("Application deleted successfully",
          { db := st.db.filter (fun r => !(r.id == application_id))
            nextId := st.nextId, files := fs2 })

/-- The row that `create_application` constructs and inserts (the
`JobApplication(...)` constructor call in `main.py`). -/
def createdRow (st : ServerState) (uuid : String) (now : Nat)
    (req : CreateRequest) (jt cn jd : String) (res : FileUpload)
    (clp : Option String) : JobApplication :=
  { id := st.nextId, company_name := cn, job_title := jt
    job_description := jd, job_url := none
    resume_path := "uploads/resumes/" ++ uuid ++ "_resume" ++
      get_file_extension res.filename
    cover_letter_path := clp
    referrer_name := req.referrer_name, referrer_email := req.referrer_email
    recruiter_name := req.recruiter_name, recruiter_email := req.recruiter_email
    status := req.status.getD "Applied"
    is_tailored := false, my_location := none, applied_date := now }

/-- A create request whose only defect is a present-but-empty job title. -/
def reqEmptyTitle : CreateRequest :=
  { job_title := some "", company_name := some "Acme Corp"
    job_description := some "Build things"
    resume := some ⟨"resume.pdf", [1, 2, 3]⟩, cover_letter := none
    referrer_name := none, referrer_email := none
    recruiter_name := none, recruiter_email := none, status := none }

/-- The row the empty-title request ends up inserting. -/
def rowEmptyTitle : JobApplication :=
  { id := 1, company_name := "Acme Corp", job_title := ""
    job_description := "Build things", job_url := none
    resume_path := "uploads/resumes/u-cex_resume.pdf"
    cover_letter_path := none
    referrer_name := none, referrer_email := none
    recruiter_name := none, recruiter_email := none
    status := "Applied", is_tailored := false
    my_location := none, applied_date := 7 }

/-- Counterexample to claim C6: a present-but-empty `job_title` is not
rejected — the create succeeds, writes the resume file, and inserts a
record whose job title is the empty string, instead of failing with a
validation error. -/
theorem create_empty_title_accepted_cex :
    create_application ⟨[], 1, []⟩ "u-cex" 7 reqEmptyTitle =
      .ok (1, ⟨[rowEmptyTitle], 2,
        [("uploads/resumes/u-cex_resume.pdf", ⟨[1, 2, 3], false⟩)]⟩) ∧
    rowEmptyTitle.job_title = "" := by
  decide

/-- Claim C6 as amended: the create endpoint fails with a validation
error exactly when one of `job_title`, `company_name`, `job_description`
or the resume file is missing from the request — in which case the
request is rejected before the handler runs, so no row is inserted and no
file is written; present-but-empty values are not rejected: with every
required part present (and a writable fresh resume path, no cover
letter), the create succeeds and returns the next record id, appending
exactly one new row and writing the resume, even when the provided texts
or the resume bytes are empty. -/
theorem create_validation_semantics (st : ServerState) (uuid : String)
    (now : Nat) (req : CreateRequest) :
    ((req.job_title = none ∨ req.company_name = none ∨
      req.job_description = none ∨ req.resume = none) →
      create_application st uuid now req = .error .validationError) ∧
    (∀ jt cn jd res, req.job_title = some jt → req.company_name = some cn →
      req.job_description = some jd → req.resume = some res →
      req.cover_letter = none →
      fsLookup st.files ("uploads/resumes/" ++ uuid ++ "_resume" ++
        get_file_extension res.filename) = none →
      create_application st uuid now req = .ok (st.nextId,
        ⟨st.db ++ [createdRow st uuid now req jt cn jd res none],
         st.nextId + 1,
         ("uploads/resumes/" ++ uuid ++ "_resume" ++
           get_file_extension res.filename, ⟨res.content, false⟩) :: st.files⟩)) := by
  obtain ⟨jt0, cn0, jd0, rs0, cl0, r1, r2, r3, r4, s0⟩ := req
  constructor
  · intro h
    have h2 : jt0 = none ∨ cn0 = none ∨ jd0 = none ∨ rs0 = none := h
    rcases h2 with h2 | h2 | h2 | h2
    · subst h2; rfl
    · subst h2; cases jt0 <;> rfl
    · subst h2; cases jt0 <;> cases cn0 <;> rfl
    · subst h2; cases jt0 <;> cases cn0 <;> cases jd0 <;> rfl
  · intro jt cn jd res h1 h2 h3 h4 h5 h6
    have e1 : jt0 = some jt := h1
    have e2 : cn0 = some cn := h2
    have e3 : jd0 = some jd := h3
    have e4 : rs0 = some res := h4
    have e5 : cl0 = none := h5
    subst e1 e2 e3 e4 e5
    have e6 : fsLookup st.files ("uploads/resumes/" ++ uuid ++ "_resume" ++
      get_file_extension res.filename) = none := h6
    simp only [create_application, fsWrite, e6, createdRow]

/-- A fully populated, minimal valid create request. -/
def reqFull : CreateRequest :=
  { job_title := some "Engineer", company_name := some "Acme Corp"
    job_description := some "Build things"
    resume := some ⟨"resume.pdf", [9]⟩, cover_letter := none
    referrer_name := none, referrer_email := none
    recruiter_name := none, recruiter_email := none, status := none }

/-- The row the complete witness request inserts. -/
def rowFull : JobApplication :=
  { id := 1, company_name := "Acme Corp", job_title := "Engineer"
    job_description := "Build things", job_url := none
    resume_path := "uploads/resumes/u0_resume.pdf"
    cover_letter_path := none
    referrer_name := none, referrer_email := none
    recruiter_name := none, recruiter_email := none
    status := "Applied", is_tailored := false
    my_location := none, applied_date := 3 }

/-- Witness for the amended claim C6: a request missing its job title is
rejected with a validation error, and a complete request on an empty
server succeeds with id 1. -/
theorem create_validation_semantics_witness :
    create_application ⟨[], 1, []⟩ "u0" 3 { reqFull with job_title := none } =
      .error .validationError ∧
    create_application ⟨[], 1, []⟩ "u0" 3 reqFull =
      .ok (1, ⟨[rowFull], 2,
        [("uploads/resumes/u0_resume.pdf", ⟨[9], false⟩)]⟩) :=
  ⟨(create_validation_semantics ⟨[], 1, []⟩ "u0" 3
      { reqFull with job_title := none }).1 (Or.inl rfl),
   (create_validation_semantics ⟨[], 1, []⟩ "u0" 3 reqFull).2
     "Engineer" "Acme Corp" "Build things" ⟨"resume.pdf", [9]⟩
     rfl rfl rfl rfl rfl (by decide)⟩

/-- A record whose resume file exists but cannot be removed by the OS. -/
def recLocked : JobApplication :=
  { id := 3, company_name := "Initech", job_title := "Dev"
    job_description := "TPS reports", job_url := none
    resume_path := "uploads/resumes/locked_resume.pdf"
    cover_letter_path := none
    referrer_name := none, referrer_email := none
    recruiter_name := none, recruiter_email := none
    status := "Applied", is_tailored := false
    my_location := none, applied_date := 2 }

/-- Server state holding `recLocked` and its locked resume file. -/
def stLocked : ServerState :=
  { db := [recLocked], nextId := 4
    files := [("uploads/resumes/locked_resume.pdf", ⟨[1], true⟩)] }

/-- Counterexample to claim C7: when `os.remove` fails on the referenced
resume file, the error is not logged-and-swallowed — the request aborts
with the propagated error, and since the handler never reaches
`db.delete`, the row is not removed. -/
theorem delete_file_error_propagates_cex :
    delete_application stLocked 3 = .error .storageError ∧
    (stLocked.db.find? (fun r => r.id == 3)).isSome = true := by
  decide

/-- Claim C7 as amended: deleting an existing record removes the row
whenever both file-removal steps succeed; a non-existent (or empty)
referenced path is skipped as a no-op thanks to the `os.path.exists`
guard; but an error raised by `os.remove` on a referenced file is not
caught: it propagates to the caller and the row is not deleted. -/
theorem delete_semantics (st : ServerState) (application_id : Nat)
    (a : JobApplication)
    (h1 : st.db.find? (fun r => r.id == application_id) = some a) :
    (∀ fs1 fs2, removeIfPresent st.files a.resume_path = .ok fs1 →
      removeOptIfPresent fs1 a.cover_letter_path = .ok fs2 →
      delete_application st application_id =
        .ok ("Application deleted successfully",
          ⟨st.db.filter (fun r => !(r.id == application_id)),
           st.nextId, fs2⟩)) ∧
    (fsExists st.files a.resume_path = false →
      removeIfPresent st.files a.resume_path = .ok st.files) ∧
    (∀ e, removeIfPresent st.files a.resume_path = .error e →
      delete_application st application_id = .error e) := by
  refine ⟨?_, ?_, ?_⟩
  · intro fs1 fs2 hf1 hf2
    simp only [delete_application, h1, hf1, hf2]
  · intro hex
    simp [removeIfPresent, hex]
  · intro e he
    simp only [delete_application, h1, he]

/-- A record whose referenced resume file no longer exists. -/
def recFree : JobApplication :=
  { id := 5, company_name := "Hooli", job_title := "SRE"
    job_description := "Keep it up", job_url := none
    resume_path := "uploads/resumes/gone_resume.pdf"
    cover_letter_path := none
    referrer_name := none, referrer_email := none
    recruiter_name := none, recruiter_email := none
    status := "Applied", is_tailored := false
    my_location := none, applied_date := 9 }

/-- Server state holding `recFree` and an empty filesystem. -/
def stFree : ServerState := { db := [recFree], nextId := 6, files := [] }

/-- Witness for the amended claim C7: with the referenced file absent,
the removal step is a no-op and the row is deleted successfully. -/
theorem delete_semantics_witness :
    delete_application stFree 5 =
      .ok ("Application deleted successfully", ⟨[], 6, []⟩) ∧
    fsExists stFree.files recFree.resume_path = false :=
  have h := delete_semantics stFree 5 recFree (by decide)
  ⟨h.1 [] [] (by decide) (by decide), by decide⟩

/-- `takeWhile` keeps a list all of whose elements satisfy the
predicate. -/
theorem takeWhile_of_all {α : Type} {p : α → Bool} (l : List α)
    (h : ∀ c ∈ l, p c = true) : l.takeWhile p = l := by
  induction l with
  | nil => rfl
  | cons c l ih =>
    rw [List.takeWhile_cons, if_pos (h c (List.mem_cons_self c l)),
      ih (fun x hx => h x (List.mem_cons_of_mem c hx))]

/-- `takeWhile` stops exactly at the first failing element. -/
theorem takeWhile_append_stop {α : Type} {p : α → Bool} (l1 l2 : List α)
    (x : α) (h1 : ∀ c ∈ l1, p c = true) (h2 : p x = false) :
    (l1 ++ x :: l2).takeWhile p = l1 := by
  induction l1 with
  | nil =>
    rw [List.nil_append, List.takeWhile_cons, if_neg (by simp [h2])]
  | cons c l ih =>
    rw [List.cons_append, List.takeWhile_cons,
      if_pos (h1 c (List.mem_cons_self c l)),
      ih (fun y hy => h1 y (List.mem_cons_of_mem c hy))]

/-- A filename without a dot yields no extension. -/
theorem splitextExtData_no_dot (l : List Char) (h : ∀ c ∈ l, ¬ c = '.') :
    splitextExtData l = [] := by
  simp only [splitextExtData]
  have hall : ∀ c ∈ l.reverse.takeWhile (fun c => !(c == '/')),
      (!(c == '.')) = true := by
    intro c hc
    have hm : c ∈ l := List.mem_reverse.mp
      ((List.takeWhile_sublist (fun c => !(c == '/'))).subset hc)
    simp [h c hm]
  rw [takeWhile_of_all _ hall, if_pos rfl]

/-- The extension is taken verbatim, leading dot included: for a
non-empty stem free of dots and slashes and an extension body free of
dots and slashes, splitext of `stem ++ "." ++ ext` is `"." ++ ext`. -/
theorem splitextExtData_verbatim (s e : List Char) (hs : s ≠ [])
    (h1 : ∀ c ∈ s, ¬ c = '.' ∧ ¬ c = '/')
    (h2 : ∀ c ∈ e, ¬ c = '.' ∧ ¬ c = '/') :
    splitextExtData (s ++ '.' :: e) = '.' :: e := by
  simp only [splitextExtData]
  have hrev : (s ++ '.' :: e).reverse = e.reverse ++ '.' :: s.reverse := by
    simp
  rw [hrev]
  have hall : ∀ c ∈ e.reverse ++ '.' :: s.reverse, (!(c == '/')) = true := by
    intro c hc
    rcases List.mem_append.mp hc with hc | hc
    · simp [(h2 c (List.mem_reverse.mp hc)).2]
    · rcases List.mem_cons.mp hc with hc | hc
      · subst hc; rfl
      · simp [(h1 c (List.mem_reverse.mp hc)).2]
  rw [takeWhile_of_all _ hall,
    takeWhile_append_stop e.reverse s.reverse '.'
      (fun c hc => by simp [(h2 c (List.mem_reverse.mp hc)).1]) rfl]
  have hlen : ¬ (e.reverse.length = (e.reverse ++ '.' :: s.reverse).length) := by
    simp
  rw [if_neg hlen]
  have hsplit : e.reverse ++ '.' :: s.reverse =
      (e.reverse ++ ['.']) ++ s.reverse := by
    simp
  have hdrop : (e.reverse ++ '.' :: s.reverse).drop (e.reverse.length + 1) =
      s.reverse := by
    rw [hsplit]
    exact List.drop_left' (by simp)
  rw [hdrop]
  have hany : (s.reverse.any (fun c => !(c == '.'))) = true := by
    cases s with
    | nil => exact absurd rfl hs
    | cons c cs =>
      refine List.any_eq_true.mpr ⟨c, ?_, ?_⟩
      · exact List.mem_reverse.mpr (List.mem_cons_self c cs)
      · simp [(h1 c (List.mem_cons_self c cs)).1]
  rw [if_pos hany, List.reverse_reverse]

/-- The row inserted in the C8 counterexample. -/
def rowD8 : JobApplication :=
  { id := 7, company_name := "Acme Corp", job_title := "Engineer"
    job_description := "Build things", job_url := none
    resume_path := "uploads/resumes/deadbeef_resume.pdf"
    cover_letter_path := none
    referrer_name := none, referrer_email := none
    recruiter_name := none, recruiter_email := none
    status := "Applied", is_tailored := false
    my_location := none, applied_date := 4 }

/-- Counterexample to claim C8: the stored file is named with the fresh
per-request uuid (`"deadbeef"`), not with the identifier of the owning
record (the database assigns the row id 7), so the persisted path is not
`{kind-directory}/{recordId}_{kind}{ext}`. -/
theorem storage_path_ignores_record_id_cex :
    create_application ⟨[], 7, []⟩ "deadbeef" 4 reqFull =
      .ok (7, ⟨[rowD8], 8,
        [("uploads/resumes/deadbeef_resume.pdf", ⟨[9], false⟩)]⟩) ∧
    rowD8.id = 7 ∧
    rowD8.resume_path = "uploads/resumes/deadbeef_resume.pdf" ∧
    rowD8.resume_path ≠ "uploads/resumes/7_resume.pdf" := by
  decide

/-- Claim C8 as amended: the storage path is
`{kind-directory}/{u}_{kind}{original-extension}` where `u` is the fresh
uuid generated for the request — not the id of the owning record, which
the database assigns independently — with the extension taken verbatim
(leading dot included) from the original filename by `os.path.splitext`,
and empty when the basename has no extension; the path is a deterministic
function of the uuid, the kind and the extension, but a repeated store
draws a fresh uuid instead of reusing the owner's, so re-uploads get new
paths rather than overwriting. -/
theorem storage_path_shape (st : ServerState) (uuid : String) (now : Nat)
    (req : CreateRequest) (jt cn jd : String) (res cl : FileUpload)
    (h1 : req.job_title = some jt) (h2 : req.company_name = some cn)
    (h3 : req.job_description = some jd) (h4 : req.resume = some res)
    (h5 : req.cover_letter = some cl)
    (h6 : fsLookup st.files ("uploads/resumes/" ++ uuid ++ "_resume" ++
      get_file_extension res.filename) = none)
    (h7 : fsLookup (("uploads/resumes/" ++ uuid ++ "_resume" ++
        get_file_extension res.filename, ⟨res.content, false⟩) :: st.files)
      ("uploads/cover_letters/" ++ uuid ++ "_cover_letter" ++
        get_file_extension cl.filename) = none) :
    create_application st uuid now req = .ok (st.nextId,
      ⟨st.db ++ [createdRow st uuid now req jt cn jd res
         (some ("uploads/cover_letters/" ++ uuid ++ "_cover_letter" ++
           get_file_extension cl.filename))],
       st.nextId + 1,
       ("uploads/cover_letters/" ++ uuid ++ "_cover_letter" ++
          get_file_extension cl.filename, ⟨cl.content, false⟩) ::
         ("uploads/resumes/" ++ uuid ++ "_resume" ++
           get_file_extension res.filename, ⟨res.content, false⟩) ::
         st.files⟩) ∧
    (createdRow st uuid now req jt cn jd res
        (some ("uploads/cover_letters/" ++ uuid ++ "_cover_letter" ++
          get_file_extension cl.filename))).resume_path =
      "uploads/resumes/" ++ uuid ++ "_resume" ++
        get_file_extension res.filename ∧
    (createdRow st uuid now req jt cn jd res
        (some ("uploads/cover_letters/" ++ uuid ++ "_cover_letter" ++
          get_file_extension cl.filename))).cover_letter_path =
      some ("uploads/cover_letters/" ++ uuid ++ "_cover_letter" ++
        get_file_extension cl.filename) ∧
    (∀ l : List Char, (∀ c ∈ l, ¬ c = '.') → splitextExtData l = []) ∧
    (∀ s e : List Char, s ≠ [] → (∀ c ∈ s, ¬ c = '.' ∧ ¬ c = '/') →
      (∀ c ∈ e, ¬ c = '.' ∧ ¬ c = '/') →
      splitextExtData (s ++ '.' :: e) = '.' :: e) := by
  obtain ⟨jt0, cn0, jd0, rs0, cl0, r1, r2, r3, r4, s0⟩ := req
  have e1 : jt0 = some jt := h1
  have e2 : cn0 = some cn := h2
  have e3 : jd0 = some jd := h3
  have e4 : rs0 = some res := h4
  have e5 : cl0 = some cl := h5
  subst e1 e2 e3 e4 e5
  have e6 : fsLookup st.files ("uploads/resumes/" ++ uuid ++ "_resume" ++
    get_file_extension res.filename) = none := h6
  have e7 : fsLookup (("uploads/resumes/" ++ uuid ++ "_resume" ++
      get_file_extension res.filename, ⟨res.content, false⟩) :: st.files)
    ("uploads/cover_letters/" ++ uuid ++ "_cover_letter" ++
      get_file_extension cl.filename) = none := h7
  refine ⟨?_, rfl, rfl, fun l h => splitextExtData_no_dot l h,
    fun s e a b c => splitextExtData_verbatim s e a b c⟩
  simp only [create_application, fsWrite, e6, e7, createdRow]

/-- A complete create request with both a resume and a cover letter. -/
def reqWithCover : CreateRequest :=
  { job_title := some "Engineer", company_name := some "Acme Corp"
    job_description := some "Build things"
    resume := some ⟨"resume.pdf", [1]⟩
    cover_letter := some ⟨"letter.docx", [2]⟩
    referrer_name := none, referrer_email := none
    recruiter_name := none, recruiter_email := none, status := none }

/-- The row inserted for `reqWithCover` under uuid `"u1"`. -/
def rowWithCover : JobApplication :=
  { id := 1, company_name := "Acme Corp", job_title := "Engineer"
    job_description := "Build things", job_url := none
    resume_path := "uploads/resumes/u1_resume.pdf"
    cover_letter_path := some "uploads/cover_letters/u1_cover_letter.docx"
    referrer_name := none, referrer_email := none
    recruiter_name := none, recruiter_email := none
    status := "Applied", is_tailored := false
    my_location := none, applied_date := 2 }

/-- Witness for the amended claim C8: both uploads land on uuid-derived
paths with their original extensions, a dotless filename gets the empty
extension, and `resume.pdf` keeps `.pdf` verbatim. -/
theorem storage_path_shape_witness :
    create_application ⟨[], 1, []⟩ "u1" 2 reqWithCover =
      .ok (1, ⟨[rowWithCover], 2,
        [("uploads/cover_letters/u1_cover_letter.docx", ⟨[2], false⟩),
         ("uploads/resumes/u1_resume.pdf", ⟨[1], false⟩)]⟩) ∧
    splitextExtData "noext".data = [] ∧
    splitextExtData ("resume".data ++ '.' :: "pdf".data) = '.' :: "pdf".data :=
  have h := storage_path_shape ⟨[], 1, []⟩ "u1" 2 reqWithCover
    "Engineer" "Acme Corp" "Build things" ⟨"resume.pdf", [1]⟩ ⟨"letter.docx", [2]⟩
    rfl rfl rfl rfl rfl (by decide) (by decide)
  ⟨h.1, h.2.2.2.1 "noext".data (by decide),
   h.2.2.2.2 "resume".data "pdf".data (by decide) (by decide) (by decide)⟩

/-- The ASCII whitespace removed by Python `str.strip()`. -/
def isPySpace (c : Char) : Bool :=
  c == ' ' || c == '\t' || c == '\n' || c == '\r' || c == '\x0b' || c == '\x0c'

/-- Python `str.strip()`: drop leading and trailing whitespace. -/
def pyStrip (s : String) : String :=
  String.mk (((s.data.dropWhile isPySpace).reverse.dropWhile isPySpace).reverse)

/-- The candidate loop of `scrape_job_info`: skip candidates that were
not found, take the stripped text of the first one whose stripped text is
non-empty (Python truthiness of `candidate.text.strip()`). -/
def firstNonBlank : List (Option String) → Option String
  | [] => none
  | none :: rest => firstNonBlank rest
  | some t :: rest =>
    if pyStrip t = "" then firstNonBlank rest else some (pyStrip t)

/-- What the individual BeautifulSoup lookups of `scrape_job_info` find:
the text of the selected element, or `none` when `find` returns no
element. A found element may well have whitespace-only text. -/
structure Soup where
  h1 : Option String
  titleTag : Option String
  classTitleLike : Option String
  classCompanyLike : Option String
  itempropHiringOrganization : Option String
  itempropName : Option String
  classDescriptionLike : Option String
  itempropDescription : Option String
  idDescriptionLike : Option String
  mainTag : Option String
  articleTag : Option String
  divClassContent : Option String
deriving DecidableEq, Repr

/-- The dictionary `scrape_job_info` returns. -/
structure ScrapeResult where
  company_name : String
  job_title : String
  job_description : String
deriving DecidableEq, Repr

/-- `scrape_job_info` (`scraper.py`) after a successful fetch and parse:
first-match-wins candidate loops for the three fields, with the
`main or article or div.content` chain as the extra description fallback
before the literal placeholder. -/
def scrape_job_info (doc : Soup) : ScrapeResult :=
  let job_title :=
    (firstNonBlank [doc.h1, doc.titleTag, doc.classTitleLike]).getD
      "Unknown Position"
  let company_name :=
    (firstNonBlank [doc.classCompanyLike, doc.itempropHiringOrganization,
      doc.itempropName]).getD "Unknown Company"
  let job_description :=
    match firstNonBlank [doc.classDescriptionLike, doc.itempropDescription,
      doc.idDescriptionLike] with
    | some d => d
    | none =>
      match doc.mainTag.orElse (fun _ => doc.articleTag.orElse
          (fun _ => doc.divClassContent)) with
      | some m => pyStrip m
      | none => "No description available"
  ⟨company_name, job_title, job_description⟩

/-- A selected candidate always carries non-empty stripped text. -/
theorem firstNonBlank_ne_empty (l : List (Option String)) (t : String)
    (h : firstNonBlank l = some t) : ¬ t = "" := by
  induction l with
  | nil => simp [firstNonBlank] at h
  | cons c rest ih =>
    cases c with
    | none => exact ih (by simpa [firstNonBlank] using h)
    | some u =>
      simp only [firstNonBlank] at h
      by_cases he : pyStrip u = ""
      · rw [if_pos he] at h
        exact ih h
      · rw [if_neg he] at h
        injection h with h2
        exact h2 ▸ he

/-- The candidate loop comes up empty exactly when every found candidate
has whitespace-only text. -/
theorem firstNonBlank_eq_none_iff (l : List (Option String)) :
    firstNonBlank l = none ↔ (∀ t, some t ∈ l → pyStrip t = "") := by
  induction l with
  | nil => simp [firstNonBlank]
  | cons c rest ih =>
    cases c with
    | none =>
      simp only [firstNonBlank]
      rw [ih]
      constructor
      · intro h t ht
        rcases List.mem_cons.mp ht with h2 | h2
        · simp at h2
        · exact h t h2
      · intro h t ht
        exact h t (List.mem_cons_of_mem _ ht)
    | some u =>
      simp only [firstNonBlank]
      by_cases he : pyStrip u = ""
      · rw [if_pos he, ih]
        constructor
        · intro h t ht
          rcases List.mem_cons.mp ht with h2 | h2
          · injection h2 with h3
            subst h3
            exact he
          · exact h t h2
        · intro h t ht
          exact h t (List.mem_cons_of_mem _ ht)
      · rw [if_neg he]
        constructor
        · intro h
          simp at h
        · intro h
          exact absurd (h u (List.mem_cons_self _ _)) he

/-- A page with none of the description markers and a `main` element
holding whitespace-only text. -/
def soupBlankMain : Soup :=
  ⟨none, none, none, none, none, none, none, none, none, some "   ", none, none⟩

/-- Counterexample to claim C4: on this successfully parsed page the
scraper returns an empty `job_description` — neither a non-empty string
nor the literal fallback — although no heuristic extractor yielded
non-empty trimmed text. -/
theorem scrape_empty_description_cex :
    (scrape_job_info soupBlankMain).job_description = "" ∧
    ¬ (scrape_job_info soupBlankMain).job_description =
      "No description available" := by
  decide

/-- Claim C4 as amended: `job_title` and `company_name` are always
non-empty; each of the three fields equals the stripped text of its first
candidate with non-empty stripped text, and `job_title` and
`company_name` take their literal fallbacks exactly when no candidate
yields non-empty trimmed text; `job_description` falls back to its
literal only when no description candidate matched and none of `main`,
`article`, `div.content` was found — when the chain finds one of those
elements (first of `main`, then `article`, then `div.content`), its
stripped text is returned even if that text is empty. -/
theorem scrape_field_semantics (doc : Soup) :
    ¬ (scrape_job_info doc).job_title = "" ∧
    ¬ (scrape_job_info doc).company_name = "" ∧
    ((∀ t, some t ∈ [doc.h1, doc.titleTag, doc.classTitleLike] →
        pyStrip t = "") →
      (scrape_job_info doc).job_title = "Unknown Position") ∧
    (∀ t, firstNonBlank [doc.h1, doc.titleTag, doc.classTitleLike] = some t →
      (scrape_job_info doc).job_title = t) ∧
    ((∀ t, some t ∈ [doc.classCompanyLike, doc.itempropHiringOrganization,
        doc.itempropName] → pyStrip t = "") →
      (scrape_job_info doc).company_name = "Unknown Company") ∧
    (∀ t, firstNonBlank [doc.classCompanyLike, doc.itempropHiringOrganization,
        doc.itempropName] = some t →
      (scrape_job_info doc).company_name = t) ∧
    (∀ d, firstNonBlank [doc.classDescriptionLike, doc.itempropDescription,
        doc.idDescriptionLike] = some d →
      (scrape_job_info doc).job_description = d) ∧
    ((∀ t, some t ∈ [doc.classDescriptionLike, doc.itempropDescription,
        doc.idDescriptionLike] → pyStrip t = "") →
      doc.mainTag = none → doc.articleTag = none →
      doc.divClassContent = none →
      (scrape_job_info doc).job_description = "No description available") ∧
    (∀ m, (∀ t, some t ∈ [doc.classDescriptionLike, doc.itempropDescription,
        doc.idDescriptionLike] → pyStrip t = "") →
      doc.mainTag = some m →
      (scrape_job_info doc).job_description = pyStrip m) ∧
    (∀ m, (∀ t, some t ∈ [doc.classDescriptionLike, doc.itempropDescription,
        doc.idDescriptionLike] → pyStrip t = "") →
      doc.mainTag = none → doc.articleTag = some m →
      (scrape_job_info doc).job_description = pyStrip m) ∧
    (∀ m, (∀ t, some t ∈ [doc.classDescriptionLike, doc.itempropDescription,
        doc.idDescriptionLike] → pyStrip t = "") →
      doc.mainTag = none → doc.articleTag = none →
      doc.divClassContent = some m →
      (scrape_job_info doc).job_description = pyStrip m) := by
  refine ⟨?_, ?_, ?_, ?_, ?_, ?_, ?_, ?_, ?_, ?_, ?_⟩
  · have e : (scrape_job_info doc).job_title =
        (firstNonBlank [doc.h1, doc.titleTag, doc.classTitleLike]).getD
          "Unknown Position" := rfl
    rw [e]
    cases hfb : firstNonBlank [doc.h1, doc.titleTag, doc.classTitleLike] with
    | none => decide
    | some t => simpa using firstNonBlank_ne_empty _ t hfb
  · have e : (scrape_job_info doc).company_name =
        (firstNonBlank [doc.classCompanyLike, doc.itempropHiringOrganization,
          doc.itempropName]).getD "Unknown Company" := rfl
    rw [e]
    cases hfb : firstNonBlank [doc.classCompanyLike,
        doc.itempropHiringOrganization, doc.itempropName] with
    | none => decide
    | some t => simpa using firstNonBlank_ne_empty _ t hfb
  · intro hall
    have hfb : firstNonBlank [doc.h1, doc.titleTag, doc.classTitleLike] = none :=
      (firstNonBlank_eq_none_iff _).mpr hall
    have e : (scrape_job_info doc).job_title =
        (firstNonBlank [doc.h1, doc.titleTag, doc.classTitleLike]).getD
          "Unknown Position" := rfl
    rw [e, hfb]
    rfl
  · intro t hfb
    have e : (scrape_job_info doc).job_title =
        (firstNonBlank [doc.h1, doc.titleTag, doc.classTitleLike]).getD
          "Unknown Position" := rfl
    rw [e, hfb]
    rfl
  · intro hall
    have hfb : firstNonBlank [doc.classCompanyLike,
        doc.itempropHiringOrganization, doc.itempropName] = none :=
      (firstNonBlank_eq_none_iff _).mpr hall
    have e : (scrape_job_info doc).company_name =
        (firstNonBlank [doc.classCompanyLike, doc.itempropHiringOrganization,
          doc.itempropName]).getD "Unknown Company" := rfl
    rw [e, hfb]
    rfl
  · intro t hfb
    have e : (scrape_job_info doc).company_name =
        (firstNonBlank [doc.classCompanyLike, doc.itempropHiringOrganization,
          doc.itempropName]).getD "Unknown Company" := rfl
    rw [e, hfb]
    rfl
  · intro d hfb
    simp only [scrape_job_info, hfb]
  · intro hall hm ha hd
    have hfb : firstNonBlank [doc.classDescriptionLike,
        doc.itempropDescription, doc.idDescriptionLike] = none :=
      (firstNonBlank_eq_none_iff _).mpr hall
    simp only [scrape_job_info, hfb, hm, ha, hd]
    rfl
  · intro m hall hm
    have hfb : firstNonBlank [doc.classDescriptionLike,
        doc.itempropDescription, doc.idDescriptionLike] = none :=
      (firstNonBlank_eq_none_iff _).mpr hall
    simp only [scrape_job_info, hfb, hm]
    rfl
  · intro m hall hm ha
    have hfb : firstNonBlank [doc.classDescriptionLike,
        doc.itempropDescription, doc.idDescriptionLike] = none :=
      (firstNonBlank_eq_none_iff _).mpr hall
    simp only [scrape_job_info, hfb, hm, ha]
    rfl
  · intro m hall hm ha hd
    have hfb : firstNonBlank [doc.classDescriptionLike,
        doc.itempropDescription, doc.idDescriptionLike] = none :=
      (firstNonBlank_eq_none_iff _).mpr hall
    simp only [scrape_job_info, hfb, hm, ha, hd]
    rfl

/-- A page where no selector finds anything at all. -/
def soupAllNone : Soup :=
  ⟨none, none, none, none, none, none, none, none, none, none, none, none⟩

/-- A page whose only found element is an `article` tag. -/
def soupArticleOnly : Soup :=
  ⟨none, none, none, none, none, none, none, none, none, none,
   some "  From the article  ", none⟩

/-- A page whose only found element is a `div` with class `content`. -/
def soupDivOnly : Soup :=
  ⟨none, none, none, none, none, none, none, none, none, none, none,
   some "  From the div  "⟩

/-- Witness for the amended claim C4: the marker-free page yields the
three literal fallbacks (title and company non-empty), the
whitespace-only-`main` page echoes the stripped main text, and the
`article`-only and `div.content`-only pages echo their stripped texts. -/
theorem scrape_field_semantics_witness :
    ¬ (scrape_job_info soupAllNone).job_title = "" ∧
    ¬ (scrape_job_info soupAllNone).company_name = "" ∧
    (scrape_job_info soupAllNone).job_title = "Unknown Position" ∧
    (scrape_job_info soupAllNone).company_name = "Unknown Company" ∧
    (scrape_job_info soupAllNone).job_description =
      "No description available" ∧
    (scrape_job_info soupBlankMain).job_description = pyStrip "   " ∧
    (scrape_job_info soupArticleOnly).job_description =
      pyStrip "  From the article  " ∧
    (scrape_job_info soupDivOnly).job_description =
      pyStrip "  From the div  " :=
  have h1 := scrape_field_semantics soupAllNone
  have h2 := scrape_field_semantics soupBlankMain
  have h3 := scrape_field_semantics soupArticleOnly
  have h4 := scrape_field_semantics soupDivOnly
  ⟨h1.1, h1.2.1,
   h1.2.2.1 (by intro t ht; simp [soupAllNone] at ht),
   h1.2.2.2.2.1 (by intro t ht; simp [soupAllNone] at ht),
   h1.2.2.2.2.2.2.2.1 (by intro t ht; simp [soupAllNone] at ht) rfl rfl rfl,
   h2.2.2.2.2.2.2.2.2.1 "   "
     (by intro t ht; simp [soupBlankMain] at ht) rfl,
   h3.2.2.2.2.2.2.2.2.2.1 "  From the article  "
     (by intro t ht; simp [soupArticleOnly] at ht) rfl rfl,
   h4.2.2.2.2.2.2.2.2.2.2 "  From the div  "
     (by intro t ht; simp [soupDivOnly] at ht) rfl rfl rfl⟩

/-- The empty pattern matches exactly the empty text. -/
theorem likeM_nil_iff (t : List Char) : likeM [] t = true ↔ t = [] := by
  cases t <;> simp [likeM]

/-- A leading `%` matches any split of the text: the rest of the pattern
must match some suffix. -/
theorem likeM_percent_iff (p t : List Char) :
    likeM ('%' :: p) t = true ↔
      ∃ t1 t2, t = t1 ++ t2 ∧ likeM p t2 = true := by
  have hstep : likeM ('%' :: p) t = (t.tails).any (fun t2 => likeM p t2) := by
    simp [likeM]
  rw [hstep, List.any_eq_true]
  constructor
  · rintro ⟨t2, hmem, h⟩
    rcases (List.mem_tails t2 t).mp hmem with ⟨t1, ht⟩
    exact ⟨t1, t2, ht.symm, h⟩
  · rintro ⟨t1, t2, rfl, h⟩
    exact ⟨t2, (List.mem_tails t2 (t1 ++ t2)).mpr ⟨t1, rfl⟩, h⟩

/-- A wildcard-free pattern followed by a final `%` matches exactly the
texts it is a prefix of. -/
theorem likeM_literal_iff (p : List Char)
    (hw : ∀ c ∈ p, ¬ c = '%' ∧ ¬ c = '_') :
    ∀ t : List Char, (likeM (p ++ ['%']) t = true ↔ p <+: t) := by
  induction p with
  | nil =>
    intro t
    rw [List.nil_append]
    constructor
    · intro _
      exact List.nil_prefix
    · intro _
      rw [likeM_percent_iff]
      exact ⟨t, [], by rw [List.append_nil], by simp [likeM]⟩
  | cons c p ih =>
    intro t
    have hc := hw c (List.mem_cons_self c p)
    have hw2 : ∀ x ∈ p, ¬ x = '%' ∧ ¬ x = '_' :=
      fun x hx => hw x (List.mem_cons_of_mem c hx)
    cases t with
    | nil =>
      rw [List.cons_append]
      simp [likeM, hc.1]
    | cons d t =>
      rw [List.cons_append]
      simp only [likeM, if_neg hc.1, if_neg hc.2, Bool.and_eq_true,
        List.cons_prefix_cons, ih hw2 t]
      simp [beq_iff_eq]

/-- The full `LIKE` pattern percent-p-percent, for wildcard-free `p`,
matches exactly the texts containing `p` as a contiguous substring. -/
theorem likeM_wrap_iff (p t : List Char)
    (hw : ∀ c ∈ p, ¬ c = '%' ∧ ¬ c = '_') :
    likeM ('%' :: (p ++ ['%'])) t = true ↔ p <:+: t := by
  rw [likeM_percent_iff]
  constructor
  · rintro ⟨t1, t2, rfl, h⟩
    rcases (likeM_literal_iff p hw t2).mp h with ⟨r, hr⟩
    exact ⟨t1, r, by rw [List.append_assoc, hr]⟩
  · rintro ⟨u, v, huv⟩
    refine ⟨u, p ++ v, ?_, (likeM_literal_iff p hw (p ++ v)).mpr ⟨v, rfl⟩⟩
    rw [← huv, List.append_assoc]

/-- `Char.ofNat` of a valid codepoint round-trips through `toNat`. -/
theorem toNat_ofNat_valid (n : Nat) (h : n.isValidChar) :
    (Char.ofNat n).toNat = n := by
  rw [Char.ofNat, dif_pos h]
  rfl

/-- ASCII lowercasing maps no character onto the `LIKE` wildcards: the
image of the A-Z shift lies in a-z, and every other character is kept. -/
theorem toLower_wildcard_free (c : Char) (h : ¬ c = '%' ∧ ¬ c = '_') :
    ¬ Char.toLower c = '%' ∧ ¬ Char.toLower c = '_' := by
  by_cases h2 : 65 ≤ Char.toNat c ∧ Char.toNat c ≤ 90
  · have he : Char.toLower c = Char.ofNat (Char.toNat c + 32) := by
      simp only [Char.toLower]
      rw [if_pos h2]
    have hv : (Char.toNat c + 32).isValidChar := by
      left
      omega
    constructor
    · intro heq
      have ht := congrArg Char.toNat heq
      rw [he, toNat_ofNat_valid _ hv] at ht
      have h37 : Char.toNat '%' = 37 := by decide
      omega
    · intro heq
      have ht := congrArg Char.toNat heq
      rw [he, toNat_ofNat_valid _ hv] at ht
      have h95 : Char.toNat '_' = 95 := by decide
      omega
  · have he : Char.toLower c = c := by
      simp only [Char.toLower]
      rw [if_neg h2]
    rw [he]
    exact h

/-- Modelled from the spec wording, for comparison with the code's
`ilike` filter: `needle` occurs in `hay` as a case-insensitive literal
substring. -/
def ciSubstr (needle hay : String) : Prop :=
  (needle.data.map Char.toLower) <:+: (hay.data.map Char.toLower)

instance (n h : String) : Decidable (ciSubstr n h) :=
  List.decidableInfix _ _

/-- The spec's search predicate: literal substring match OR-ed over the
four searched columns, with absent optional columns never matching. -/
def ciSubstrRow (s : String) (r : JobApplication) : Bool :=
  decide (ciSubstr s r.company_name) || decide (ciSubstr s r.job_title) ||
    (match r.referrer_name with
     | some v => decide (ciSubstr s v)
     | none => false) ||
    (match r.recruiter_name with
     | some v => decide (ciSubstr s v)
     | none => false)

/-- For search text without `%` and `_`, the code's `ilike` with the
percent-wrapped pattern is exactly the case-insensitive literal substring
test. -/
theorem ilike_substring_iff (s t : String)
    (hw : ∀ c ∈ s.data, ¬ c = '%' ∧ ¬ c = '_') :
    ilike ("%" ++ s ++ "%") t = true ↔ ciSubstr s t := by
  have hd : ("%" ++ s ++ "%").data = ('%' :: s.data) ++ ['%'] := by
    rw [String.data_append, String.data_append]
    rfl
  have hlow : Char.toLower '%' = '%' := by decide
  have hmap : ("%" ++ s ++ "%").data.map Char.toLower =
      '%' :: (s.data.map Char.toLower ++ ['%']) := by
    rw [hd, List.map_append, List.map_cons, hlow]
    rfl
  have hw2 : ∀ c ∈ s.data.map Char.toLower, ¬ c = '%' ∧ ¬ c = '_' := by
    intro c hc
    rcases List.mem_map.mp hc with ⟨d, hd2, rfl⟩
    exact toLower_wildcard_free d (hw d hd2)
  rw [ilike, hmap, likeM_wrap_iff _ _ hw2]
  exact Iff.rfl

/-- `ilike` and the substring test agree on nullable columns as well. -/
theorem ilikeOpt_eq_substr (s : String) (o : Option String)
    (hw : ∀ c ∈ s.data, ¬ c = '%' ∧ ¬ c = '_') :
    ilikeOpt ("%" ++ s ++ "%") o =
      (match o with
       | some v => decide (ciSubstr s v)
       | none => false) := by
  cases o with
  | none => rfl
  | some v =>
    simp only [ilikeOpt]
    rw [Bool.eq_iff_iff]
    simp [ilike_substring_iff s v hw]

/-- Pointwise: for wildcard-free non-empty search text, the code's row
filter is the spec's substring predicate. -/
theorem rowMatches_eq_ciSubstrRow (s : String) (r : JobApplication)
    (hs : ¬ s = "") (hw : ∀ c ∈ s.data, ¬ c = '%' ∧ ¬ c = '_') :
    rowMatches (some s) none r = ciSubstrRow s r := by
  have h1 : ilike ("%" ++ s ++ "%") r.company_name =
      decide (ciSubstr s r.company_name) := by
    rw [Bool.eq_iff_iff]
    simp [ilike_substring_iff s r.company_name hw]
  have h2 : ilike ("%" ++ s ++ "%") r.job_title =
      decide (ciSubstr s r.job_title) := by
    rw [Bool.eq_iff_iff]
    simp [ilike_substring_iff s r.job_title hw]
  simp only [rowMatches, if_neg hs, Bool.and_true, rowMatchesSearch,
    ciSubstrRow, h1, h2, ilikeOpt_eq_substr s r.referrer_name hw,
    ilikeOpt_eq_substr s r.recruiter_name hw]

/-- Claim C9 as amended: the search filter is SQL `ILIKE` on the
percent-wrapped search text, so `%` and `_` inside the search text act as
wildcards; for search text containing neither, the endpoint returns
exactly the records whose company name, job title, referrer name or
recruiter name contains the text as a case-insensitive literal substring
(OR semantics, absent optional fields never matching): the total is the
count of those records and the page is cut from exactly them. -/
theorem search_literal_substring (db : List JobApplication) (s : String)
    (skip limit : Nat) (hl : 0 < limit) (hs : ¬ s = "")
    (hw : ∀ c ∈ s.data, ¬ c = '%' ∧ ¬ c = '_') :
    get_applications db (some s) none skip limit = .ok
      ⟨(db.filter (ciSubstrRow s)).length,
       ((List.insertionSort dateDesc
         (db.filter (ciSubstrRow s))).drop skip).take limit,
       skip / limit + 1,
       ((db.filter (ciSubstrRow s)).length + limit - 1) / limit⟩ := by
  have hfe : db.filter (rowMatches (some s) none) = db.filter (ciSubstrRow s) :=
    List.filter_congr (fun r _ => rowMatches_eq_ciSubstrRow s r hs hw)
  have hne : ¬ limit = 0 := by omega
  simp only [get_applications, hfe, if_neg hne]

/-- Witness for the amended claim C9: searching `"acme"` on a store
holding `"Acme Corp"` and `"Globex"` returns exactly the Acme record
(the spec's own example of case-insensitive substring search). -/
theorem search_literal_substring_witness :
    get_applications [recB, recA] (some "acme") none 0 50 = .ok
      ⟨([recB, recA].filter (ciSubstrRow "acme")).length,
       ((List.insertionSort dateDesc
         ([recB, recA].filter (ciSubstrRow "acme"))).drop 0).take 50,
       0 / 50 + 1,
       (([recB, recA].filter (ciSubstrRow "acme")).length + 50 - 1) / 50⟩ :=
  search_literal_substring [recB, recA] "acme" 0 50 (by decide) (by decide)
    (by decide)

/-- A record whose company name is `"abc"`. -/
def recWild : JobApplication :=
  { id := 9, company_name := "abc", job_title := "Tester"
    job_description := "Test things", job_url := none
    resume_path := "uploads/resumes/w_resume.pdf", cover_letter_path := none
    referrer_name := none, referrer_email := none
    recruiter_name := none, recruiter_email := none
    status := "Applied", is_tailored := false, my_location := none
    applied_date := 1 }

/-- Counterexample to claim C9: searching for `"a_c"` returns the record
with company `"abc"` although `"a_c"` is not a case-insensitive literal
substring of `"abc"` — the underscore acts as a single-character SQL
wildcard inside the `ilike` pattern. -/
theorem search_wildcard_cex :
    get_applications [recWild] (some "a_c") none 0 50 =
      .ok ⟨1, [recWild], 1, 1⟩ ∧
    ¬ ciSubstr "a_c" "abc" := by
  constructor
  · decide
  · decide

end JobTracker
